import Mathlib

/-!
Verification of the markdown rule engine of `scripts/markdown/rules.py`.

Python strings are modelled as `List Char` (a Python `str` is a sequence of
unicode code points, which `Char` models exactly).  Each `fix_mdXXX` static
method of `MarkdownFixer` is translated into a total Lean function of type
`List Char → List Char`; the regular-expression substitutions of the source
are hand-translated into explicit scans whose semantics (leftmost match,
non-overlapping, resume after the match) follow `re.sub`.
-/

namespace MarkdownRules

/-- The backtick character (U+0060), written via its code point. -/
def btick : Char := Char.ofNat 96

/-- Whitespace stripped by Python `str.strip()`: exactly the code points
    with `str.isspace()` true, i.e. U+0009–U+000D, U+001C–U+001F, the
    space U+0020, U+0085, U+00A0, U+1680, U+2000–U+200A, U+2028, U+2029,
    U+202F, U+205F and U+3000. -/
def isPyWS (c : Char) : Bool :=
  decide ((9 ≤ c.toNat ∧ c.toNat ≤ 13) ∨ (28 ≤ c.toNat ∧ c.toNat ≤ 31) ∨
    c.toNat = 32 ∨ c.toNat = 133 ∨ c.toNat = 160 ∨ c.toNat = 5760 ∨
    (8192 ≤ c.toNat ∧ c.toNat ≤ 8202) ∨ c.toNat = 8232 ∨ c.toNat = 8233 ∨
    c.toNat = 8239 ∨ c.toNat = 8287 ∨ c.toNat = 12288)

/-- Python `str.strip()`: drop leading and trailing whitespace. -/
def stripChars (l : List Char) : List Char :=
  ((l.dropWhile isPyWS).reverse.dropWhile isPyWS).reverse

/-- Python's substring test `pat in s`. -/
def containsSub (pat : List Char) : List Char → Bool
  | [] => pat.isEmpty
  | c :: cs => pat.isPrefixOf (c :: cs) || containsSub pat cs

/-- Python `content.split('\n')`: split on every newline; an empty string
    yields one empty field, matching `''.split('\n') == ['']`. -/
def splitNl : List Char → List (List Char)
  | [] => [[]]
  | c :: cs =>
    if c = '\n' then [] :: splitNl cs
    else
      match splitNl cs with
      | [] => [[c]]
      | h :: t => (c :: h) :: t

/-- Python `'\n'.join(lines)`. -/
def joinNl : List (List Char) → List Char
  | [] => []
  | [l] => l
  | l :: ls => l ++ '\n' :: joinNl ls

theorem splitNl_ne_nil (l : List Char) : splitNl l ≠ [] := by
  induction l with
  | nil => simp [splitNl]
  | cons c cs ih =>
    by_cases h : c = '\n'
    · simp [splitNl, h]
    · simp only [splitNl, h, if_false]
      cases hs : splitNl cs with
      | nil => exact absurd hs ih
      | cons a as => simp

theorem splitNl_no_newline (l : List Char) (h : '\n' ∉ l) : splitNl l = [l] := by
  induction l with
  | nil => simp [splitNl]
  | cons c cs ih =>
    have hc : c ≠ '\n' := fun hc => h (hc ▸ List.mem_cons_self c cs)
    have hcs : '\n' ∉ cs := fun hm => h (List.mem_cons_of_mem c hm)
    simp [splitNl, hc, ih hcs]

theorem splitNl_append_cons (a b : List Char) (h : '\n' ∉ a) :
    splitNl (a ++ '\n' :: b) = a :: splitNl b := by
  induction a with
  | nil => simp [splitNl]
  | cons c cs ih =>
    have hc : c ≠ '\n' := fun hc => h (hc ▸ List.mem_cons_self c cs)
    have hcs : '\n' ∉ cs := fun hm => h (List.mem_cons_of_mem c hm)
    simp only [List.cons_append, splitNl, hc, if_false, List.append_eq]
    rw [ih hcs]

/-! ### MD012 — collapse multiple blank lines

The source is `re.sub(r'\n{3,}', '\n\n', content)`: every maximal run of
three or more newlines is replaced by exactly two, runs of one or two are
kept.  Equivalently, each maximal newline run of length `k` is truncated to
`min k 2` newlines.  `md012Aux k` carries the number of newlines already
seen in the current run; a newline is emitted only while fewer than two
have been seen. -/

def md012Aux : Nat → List Char → List Char
  | _, [] => []
  | k, c :: cs =>
    if c = '\n' then
      if k < 2 then c :: md012Aux (k + 1) cs else md012Aux (k + 1) cs
    else c :: md012Aux 0 cs

/-- `MarkdownFixer.fix_md012_multiple_blank_lines`. -/
def fix_md012 (l : List Char) : List Char := md012Aux 0 l

theorem md012Aux_state_irrel (l : List Char) :
    ∀ j k : Nat, 2 ≤ j → 2 ≤ k → md012Aux j l = md012Aux k l := by
  induction l with
  | nil => intro j k _ _; rfl
  | cons c cs ih =>
    intro j k hj hk
    by_cases hc : c = '\n'
    · have hj2 : ¬ j < 2 := by omega
      have hk2 : ¬ k < 2 := by omega
      simp only [md012Aux, hc, if_true, hj2, hk2, if_false]
      exact ih (j + 1) (k + 1) (by omega) (by omega)
    · simp [md012Aux, hc]

theorem md012Aux_idem (l : List Char) :
    ∀ k : Nat, md012Aux k (md012Aux k l) = md012Aux k l := by
  induction l with
  | nil => intro k; rfl
  | cons c cs ih =>
    intro k
    by_cases hc : c = '\n'
    · subst hc
      by_cases hk : k < 2
      · simp only [md012Aux, if_true, hk, reduceIte]
        rw [ih (k + 1)]
      · simp only [md012Aux, hk, if_false, reduceIte]
        rw [md012Aux_state_irrel _ k (k + 1) (by omega) (by omega), ih (k + 1)]
    · simp only [md012Aux, hc, if_false]
      rw [ih 0]

/-! ### MD047 — file ends with a single newline

Source: append `'\n'` when the content does not end with one, then
`re.sub(r'\n+$', '\n', content)`, which replaces the maximal trailing
newline run (when present) by a single newline. -/

/-- Remove the maximal trailing run of newlines. -/
def dropTrailingNl (l : List Char) : List Char :=
  (l.reverse.dropWhile (fun c => c = '\n')).reverse

/-- `MarkdownFixer.fix_md047_file_ends_newline`. -/
def fix_md047 (l : List Char) : List Char :=
  let l1 := if l.getLast? = some '\n' then l else l ++ ['\n']
  if l1.reverse.takeWhile (fun c => c = '\n') = [] then l1
  else dropTrailingNl l1 ++ ['\n']

theorem dropWhile_dropWhile {α : Type} (p : α → Bool) (l : List α) :
    (l.dropWhile p).dropWhile p = l.dropWhile p := by
  induction l with
  | nil => rfl
  | cons c cs ih =>
    by_cases h : p c
    · simp [List.dropWhile, h, ih]
    · simp [List.dropWhile, h]

theorem fix_md047_eq (l : List Char) :
    fix_md047 l =
      dropTrailingNl (if l.getLast? = some '\n' then l else l ++ ['\n']) ++ ['\n'] := by
  unfold fix_md047
  set l1 := if l.getLast? = some '\n' then l else l ++ ['\n'] with hl1
  have hlast : l1.getLast? = some '\n' := by
    rw [hl1]
    by_cases h : l.getLast? = some '\n'
    · simp [h]
    · simp [h]
  have hrev : l1.reverse.head? = some '\n' := by
    rw [List.head?_reverse]; exact hlast
  obtain ⟨r, hr⟩ : ∃ r, l1.reverse = '\n' :: r := by
    cases h : l1.reverse with
    | nil => rw [h] at hrev; simp at hrev
    | cons a as =>
      rw [h] at hrev
      simp only [List.head?] at hrev
      exact ⟨as, by rw [Option.some_inj] at hrev; rw [hrev]⟩
  have : l1.reverse.takeWhile (fun c => c = '\n') ≠ [] := by
    rw [hr]; simp [List.takeWhile]
  simp [this]

theorem fix_md047_idem (l : List Char) : fix_md047 (fix_md047 l) = fix_md047 l := by
  rw [fix_md047_eq l, fix_md047_eq]
  set l1 := if l.getLast? = some '\n' then l else l ++ ['\n'] with hl1
  set X := dropTrailingNl l1 with hX
  have hlast : (X ++ ['\n']).getLast? = some '\n' := List.getLast?_concat _
  rw [if_pos hlast]
  have hXrev : X.reverse = l1.reverse.dropWhile (fun c => c = '\n') := by
    rw [hX]; unfold dropTrailingNl; rw [List.reverse_reverse]
  have : dropTrailingNl (X ++ ['\n']) = X := by
    unfold dropTrailingNl
    rw [List.reverse_append]
    simp only [List.reverse_cons, List.reverse_nil, List.nil_append, List.singleton_append]
    rw [List.dropWhile_cons_of_pos (by simp)]
    rw [hXrev, dropWhile_dropWhile, ← hXrev, List.reverse_reverse]
  rw [this]

/-! ### MD024 — number duplicate level-3 headings

Source (`fix_md024_duplicate_headings`): for every line starting with
`'### '`, the key is `line.replace('### ', '').replace(':', '').strip()` —
note that Python `str.replace` removes **every** occurrence of `'### '`
and **every** colon, not only a leading marker and a trailing colon.
On a repeated key the line is rewritten to `f'### {base} ({count})'`. -/

/-- Python `line.replace('### ', '')`: delete every (leftmost,
    non-overlapping) occurrence of the four characters `'### '`. -/
def stripH3Marker : List Char → List Char
  | '#' :: '#' :: '#' :: ' ' :: rest => stripH3Marker rest
  | c :: cs => c :: stripH3Marker cs
  | [] => []

/-- The normalization `line.replace('### ', '').replace(':', '').strip()`. -/
def normalizeHeading (l : List Char) : List Char :=
  stripChars (List.filter (fun c => c ≠ ':') (stripH3Marker l))

/-- The rewritten duplicate heading `f'### {base} ({count})'`. -/
def mkNumberedHeading (base : List Char) (n : Nat) : List Char :=
  "### ".data ++ base ++ " (".data ++ Nat.toDigits 10 n ++ ")".data

/-- Lookup in the `heading_counts` dict, modelled as an association list. -/
def lookupKey : List (List Char × Nat) → List Char → Option Nat
  | [], _ => none
  | e :: es, k => if e.1 = k then some e.2 else lookupKey es k

/-- In-place update `heading_counts[base] = v` for an existing key. -/
def updateKey : List (List Char × Nat) → List Char → Nat → List (List Char × Nat)
  | [], _, _ => []
  | e :: es, k, v => if e.1 = k then (k, v) :: es else e :: updateKey es k v

/-- Python `base in heading_counts`. -/
def containsKey (m : List (List Char × Nat)) (k : List Char) : Bool :=
  (lookupKey m k).isSome

/-- The per-line loop of `fix_md024_duplicate_headings`. -/
def md024Go : List (List Char × Nat) → List (List Char) → List (List Char)
  | _, [] => []
  | counts, l :: ls =>
    if "### ".data.isPrefixOf l then
      let base := normalizeHeading l
      match lookupKey counts base with
      | some n => mkNumberedHeading base (n + 1) :: md024Go (updateKey counts base (n + 1)) ls
      | none => l :: md024Go ((base, 1) :: counts) ls
    else l :: md024Go counts ls

/-- `MarkdownFixer.fix_md024_duplicate_headings`. -/
def fix_md024 (c : List Char) : List Char :=
  joinNl (md024Go [] (splitNl c))

/-- Variant in which the two partial primitives of the source — the dict
    subscript `heading_counts[base]` (which can raise `KeyError`) — are
    modelled as fallible; `none` is the error branch. -/
def md024GoE : List (List Char × Nat) → List (List Char) → Option (List (List Char))
  | _, [] => some []
  | counts, l :: ls =>
    if "### ".data.isPrefixOf l then
      let base := normalizeHeading l
      if containsKey counts base then
        match lookupKey counts base with
        | some n =>
          (md024GoE (updateKey counts base (n + 1)) ls).map
            (fun r => mkNumberedHeading base (n + 1) :: r)
        | none => none
      else (md024GoE ((base, 1) :: counts) ls).map (fun r => l :: r)
    else (md024GoE counts ls).map (fun r => l :: r)

/-- `fix_md024` with the reachable-error-branch model. -/
def fix_md024E (c : List Char) : Option (List Char) :=
  (md024GoE [] (splitNl c)).map joinNl

theorem md024GoE_eq (ls : List (List Char)) :
    ∀ counts, md024GoE counts ls = some (md024Go counts ls) := by
  induction ls with
  | nil => intro counts; rfl
  | cons l ls ih =>
    intro counts
    by_cases hp : "### ".data.isPrefixOf l
    · simp only [md024GoE, md024Go, hp, if_true]
      cases hlk : lookupKey counts (normalizeHeading l) with
      | some n =>
        have hck : containsKey counts (normalizeHeading l) = true := by
          simp [containsKey, hlk]
        simp [hck, hlk, ih]
      | none =>
        have hck : ¬ containsKey counts (normalizeHeading l) = true := by
          simp [containsKey, hlk]
        simp [hck, hlk, ih]
    · simp [md024GoE, md024Go, hp, ih]

/-! ### MD026 — strip a trailing colon from headings

Source: `re.sub(r'^(### [^:\n]+):$', r'\1', content, flags=re.MULTILINE)`
followed by the same with `'## '`.  Both patterns are anchored by `^...$`
in multiline mode and cannot match a newline, so each acts line by line:
a line of the shape `marker ++ mid ++ ":"` with `mid` nonempty and free of
colons (and of newlines, which is automatic for a line) loses its final
colon. -/

/-- One anchored multiline substitution of `fix_md026_trailing_punctuation`,
    acting on a single line, for the given heading marker. -/
def md026Line (marker : List Char) (l : List Char) : List Char :=
  if marker.isPrefixOf l ∧ l.getLast? = some ':' ∧
      (l.drop marker.length).dropLast ≠ [] ∧
      ':' ∉ (l.drop marker.length).dropLast ∧
      '\n' ∉ (l.drop marker.length).dropLast
  then l.dropLast else l

/-- `MarkdownFixer.fix_md026_trailing_punctuation`: the `'### '` pattern
    is substituted first, then the `'## '` pattern. -/
def fix_md026 (c : List Char) : List Char :=
  joinNl ((splitNl c).map (fun l => md026Line "## ".data (md026Line "### ".data l)))

/-! ### MD013 — split long lines

Source (`fix_md013_line_length`, default `max_len = 120`): a line longer
than `max_len` containing neither `'|'` nor a backtick is split on the
wide comma `'，'` when present, else on `'. '` when present, else kept.
Split segments are re-accumulated greedily; an overflowing segment starts
a continuation line `'  ，' + part.strip()` resp. `'  . ' + part.strip()`. -/

/-- Python `line.split('，')` (single-character separator). -/
def splitComma : List Char → List (List Char)
  | [] => [[]]
  | c :: cs =>
    if c = '，' then [] :: splitComma cs
    else
      match splitComma cs with
      | [] => [[c]]
      | h :: t => (c :: h) :: t

/-- Python `line.split('. ')` (two-character separator, leftmost,
    non-overlapping). -/
def splitDotSpace : List Char → List (List Char)
  | [] => [[]]
  | '.' :: ' ' :: cs => [] :: splitDotSpace cs
  | c :: cs =>
    match splitDotSpace cs with
    | [] => [[c]]
    | h :: t => (c :: h) :: t

/-- The separator `'，'`. -/
def sepComma : List Char := "，".data

/-- The continuation-line head `'  ，'` of the wide-comma branch. -/
def prefComma : List Char := "  ，".data

/-- The separator `'. '`. -/
def sepDot : List Char := ". ".data

/-- The continuation-line head `'  . '` of the `'. '` branch. -/
def prefDot : List Char := "  . ".data

/-- The accumulation loop of `fix_md013_line_length` over `parts[1:]`,
    starting from `current = parts[0]`.  The overflow test of the source
    adds the separator length (1 for `'，'`, 2 for `'. '`), which equals
    `sep.length`. -/
def accum (sep pref : List Char) (maxLen : Nat) : List Char → List (List Char) → List (List Char)
  | cur, [] => [cur]
  | cur, p :: ps =>
    if cur.length + p.length + sep.length ≤ maxLen then
      accum sep pref maxLen (cur ++ sep ++ p) ps
    else cur :: accum sep pref maxLen (pref ++ stripChars p) ps

/-- The body of the per-line loop of `fix_md013_line_length`: the list of
    output lines produced for one input line. -/
def md013LineP (maxLen : Nat) (l : List Char) : List (List Char) :=
  if maxLen < l.length ∧ '|' ∉ l ∧ btick ∉ l then
    if '，' ∈ l then
      match splitComma l with
      | [] => [l]
      | p :: ps => accum sepComma prefComma maxLen p ps
    else if containsSub sepDot l then
      match splitDotSpace l with
      | [] => [l]
      | p :: ps => accum sepDot prefDot maxLen p ps
    else [l]
  else [l]

/-- `MarkdownFixer.fix_md013_line_length`. -/
def fix_md013 (maxLen : Nat) (c : List Char) : List Char :=
  joinNl (((splitNl c).map (md013LineP maxLen)).flatten)

/-- Variant of the per-line body in which the source's partial primitive
    `parts[0]` (list subscripting, which can raise `IndexError`) is
    modelled as fallible; `none` is the error branch. -/
def md013LineE (maxLen : Nat) (l : List Char) : Option (List (List Char)) :=
  if maxLen < l.length ∧ '|' ∉ l ∧ btick ∉ l then
    if '，' ∈ l then
      match (splitComma l).head? with
      | none => none
      | some p => some (accum sepComma prefComma maxLen p (splitComma l).tail)
    else if containsSub sepDot l then
      match (splitDotSpace l).head? with
      | none => none
      | some p => some (accum sepDot prefDot maxLen p (splitDotSpace l).tail)
    else some [l]
  else some [l]

/-- Sequence a list of fallible results. -/
def seqOpt {α : Type} : List (Option α) → Option (List α)
  | [] => some []
  | o :: os =>
    match o with
    | none => none
    | some a =>
      match seqOpt os with
      | none => none
      | some as => some (a :: as)

/-- `fix_md013` with the reachable-error-branch model. -/
def fix_md013E (maxLen : Nat) (c : List Char) : Option (List Char) :=
  (seqOpt ((splitNl c).map (md013LineE maxLen))).map (fun lss => joinNl lss.flatten)

/-- A 220-character line: 100 `'a'`s, a wide comma, 119 `'b'`s. -/
def Lc5 : List Char := List.replicate 100 'a' ++ '，' :: List.replicate 119 'b'

/-- Does every split segment of the wide-comma split stay within 120? -/
def allCommaSegmentsWithin (l : List Char) : Bool :=
  (splitComma l).all (fun p => p.length ≤ 120)

/-! ### A leftmost, non-overlapping substitution scanner

`re.sub(pattern, repl, content)` for the patterns used by MD031, MD032,
MD040, MD045 and MD051 is implemented by `scanFix`: at each position a
matcher either fails (emit one character, move on) or returns the
replacement text plus the number of characters the match consumed, after
which scanning resumes (non-overlapping).  Every matcher below consumes at
least one character, so a fuel equal to the input length suffices. -/

def scanFix (m : List Char → Option (List Char × Nat)) : Nat → List Char → List Char
  | _, [] => []
  | 0, l => l
  | fuel + 1, c :: cs =>
    match m (c :: cs) with
    | some (out, k) => out ++ scanFix m fuel (List.drop k (c :: cs))
    | none => c :: scanFix m fuel cs

/-- Run one `re.sub` pass over the whole content. -/
def runScan (m : List Char → Option (List Char × Nat)) (l : List Char) : List Char :=
  scanFix m l.length l

/-- The `[a-z]` character class. -/
def isLowerAZ (c : Char) : Bool := 'a' ≤ c && c ≤ 'z'

/-! ### MD031 — blank lines around fenced code blocks -/

/-- Matcher for `([^\n])\n(```[a-z]*\n)` with replacement `\1\n\n\2`. -/
def m031a : List Char → Option (List Char × Nat)
  | a :: '\n' :: rest =>
    if a ≠ '\n' ∧ "```".data.isPrefixOf rest then
      let body := rest.drop 3
      let tag := body.takeWhile isLowerAZ
      if (body.drop tag.length).take 1 = ['\n'] then
        some (a :: '\n' :: '\n' :: ("```".data ++ tag ++ ['\n']), 6 + tag.length)
      else none
    else none
  | _ => none

/-- Matcher for `\n(```)\n` with replacement `\n\1\n\n`. -/
def m031b : List Char → Option (List Char × Nat)
  | '\n' :: rest =>
    if "```\n".data.isPrefixOf rest then some ("\n```\n\n".data, 5) else none
  | _ => none

/-- `MarkdownFixer.fix_md031_code_blocks`: the before-fence substitution,
    then the after-fence substitution. -/
def fix_md031 (c : List Char) : List Char :=
  runScan m031b (runScan m031a c)

/-! ### MD040 — default code-fence language -/

/-- Matcher for `\n```\n` with replacement `\n```bash\n`. -/
def m040 : List Char → Option (List Char × Nat)
  | '\n' :: rest =>
    if "```\n".data.isPrefixOf rest then some ("\n```bash\n".data, 5) else none
  | _ => none

/-- `MarkdownFixer.fix_md040_code_block_language`. -/
def fix_md040 (c : List Char) : List Char :=
  runScan m040 c

/-! ### MD032 — blank line before marked bullet lists -/

/-- The bullet lead symbols `[✅🔧🚀📊]` of the source patterns. -/
def isBulletEmoji (c : Char) : Bool :=
  c = '✅' || c = '🔧' || c = '🚀' || c = '📊'

/-- Matcher for `(marker[^\n]+)\n(- [✅🔧🚀📊])` with replacement
    `\1\n\n\2` (the source uses markers `'### '` and `'## '`; the pattern
    is unanchored, so it can also start mid-line). -/
def m032head (marker : List Char) (l : List Char) : Option (List Char × Nat) :=
  if marker.isPrefixOf l then
    let rest := l.drop marker.length
    let t := rest.takeWhile (fun c => c ≠ '\n')
    if t ≠ [] then
      match rest.drop t.length with
      | '\n' :: '-' :: ' ' :: e :: _ =>
        if isBulletEmoji e then
          some (marker ++ t ++ '\n' :: '\n' :: '-' :: ' ' :: [e], marker.length + t.length + 4)
        else none
      | _ => none
    else none
  else none

/-- Matcher for `(\*\*[^\n]+\*\*)\n(- [✅🔧🚀📊])`: the segment up to the
    newline must start with `**`, end with `**` and have length ≥ 5. -/
def m032bold (l : List Char) : Option (List Char × Nat) :=
  if "**".data.isPrefixOf l then
    let t := l.takeWhile (fun c => c ≠ '\n')
    if 5 ≤ t.length ∧ "**".data.isSuffixOf t then
      match l.drop t.length with
      | '\n' :: '-' :: ' ' :: e :: _ =>
        if isBulletEmoji e then
          some (t ++ '\n' :: '\n' :: '-' :: ' ' :: [e], t.length + 4)
        else none
      | _ => none
    else none
  else none

/-- `MarkdownFixer.fix_md032_heading_list_spacing`: the `'### '` pattern,
    then the `'## '` pattern, then the bold pattern. -/
def fix_md032 (c : List Char) : List Char :=
  runScan m032bold (runScan (m032head "## ".data) (runScan (m032head "### ".data) c))

/-! ### MD036 — promote bold-only lines to headings

The three substitutions use `re.MULTILINE`, so `^` matches at the start of
the content or right after any newline, and `$` right before any newline
or at the end; their classes `[^*]` and `[^<]` do match `'\n'`, so a match
may span lines.  `runMultiline` tries the anchored matcher at position 0
and, through the scanner, right after every newline (the newline at a `$`
position is never consumed, since `$` is zero-width). -/

/-- Does the text start at a `$` position (a newline or the end)? -/
def atLineEnd : List Char → Bool
  | [] => true
  | '\n' :: _ => true
  | _ => false

/-- Anchor a start-of-line matcher right after a newline: the newline is
    re-emitted unchanged and counted as consumed by the scanner. -/
def nlAnchor (mAt : List Char → Option (List Char × Nat)) :
    List Char → Option (List Char × Nat)
  | '\n' :: rest =>
    match mAt rest with
    | some (out, k) => some ('\n' :: out, k + 1)
    | none => none
  | _ => none

/-- One `re.sub` pass of a `^`-anchored multiline pattern: try the matcher
    at the very start, then after every newline. -/
def runMultiline (mAt : List Char → Option (List Char × Nat)) (l : List Char) : List Char :=
  match mAt l with
  | some (out, k) => out ++ runScan (nlAnchor mAt) (l.drop k)
  | none => runScan (nlAnchor mAt) l

/-- The maximal run matched by the greedy `(?:[^*]|\*(?!\*))+`: any
    character (newline included) except a star that is immediately
    followed by another star. -/
def innerRun : List Char → List Char
  | [] => []
  | ['*'] => ['*']
  | '*' :: c2 :: cs => if c2 = '*' then [] else '*' :: innerRun (c2 :: cs)
  | c :: cs => c :: innerRun cs

/-- Matcher at a `^` position for `^(\*\*(?:[^*]|\*(?!\*))+ \*\*)$` →
    `### \1`.  After the opening `**` the greedy body stops at the first
    `**` pair (or at the end); the engine then backtracks exactly one
    character, so a match requires the body to end with a space, followed
    by two stars and a `$` position (a third star fails `$`, and no
    shorter body can work since the body never contains `**`).  Group 1 is
    the whole match, asterisks kept. -/
def m036p1At : List Char → Option (List Char × Nat)
  | '*' :: '*' :: rest =>
    let body := innerRun rest
    if 2 ≤ body.length ∧ body.getLast? = some ' ' then
      match rest.drop body.length with
      | '*' :: '*' :: r =>
        if atLineEnd r then some ("### **".data ++ body ++ "**".data, body.length + 4)
        else none
      | _ => none
    else none
  | _ => none

/-- Matcher at a `^` position for `^\*\*([^*]+)\*\*$` → `### \1`: the body
    is the maximal star-free run (newlines included), followed by exactly
    two stars and a `$` position. -/
def m036p2At : List Char → Option (List Char × Nat)
  | '*' :: '*' :: rest =>
    let body := rest.takeWhile (fun c => c ≠ '*')
    if body ≠ [] then
      match rest.drop body.length with
      | '*' :: '*' :: r =>
        if atLineEnd r then some ("### ".data ++ body, body.length + 4) else none
      | _ => none
    else none
  | _ => none

/-- Matcher at a `^` position for `^<strong>([^<]+)</strong>$` → `### \1`:
    the body is the maximal `<`-free run (newlines included), followed by
    the literal closing tag and a `$` position. -/
def m036p3At (l : List Char) : Option (List Char × Nat) :=
  if "<strong>".data.isPrefixOf l then
    let t := (l.drop 8).takeWhile (fun c => c ≠ '<')
    if t ≠ [] ∧ "</strong>".data.isPrefixOf ((l.drop 8).drop t.length) ∧
        atLineEnd ((l.drop 8).drop (t.length + 9))
    then some ("### ".data ++ t, t.length + 17) else none
  else none

/-- `MarkdownFixer.fix_md036_emphasis_heading`: the three multiline
    substitutions in source order. -/
def fix_md036 (c : List Char) : List Char :=
  runMultiline m036p3At (runMultiline m036p2At (runMultiline m036p1At c))

/-! ### The remaining rules (all built from total primitives) -/

/-- `MarkdownFixer.fix_md001_heading_increment`: the loop appends every
    line unchanged (the tracked level is never used), so the function is
    `'\n'.join(content.split('\n'))`. -/
def fix_md001 (c : List Char) : List Char := joinNl (splitNl c)

/-- `MarkdownFixer.fix_md027_asterisk_blocks`: returns its input. -/
def fix_md027 (c : List Char) : List Char := c

/-- `MarkdownFixer.fix_md028_blank_line_after_blockquotes`: identity. -/
def fix_md028 (c : List Char) : List Char := c

/-- `MarkdownFixer.fix_md033_no_inline_html`: identity. -/
def fix_md033 (c : List Char) : List Char := c

/-- The two anchored substitutions `^  - ` → `- ` and `^  \* ` → `* ` of
    `fix_md030_list_markers`, acting on one line. -/
def md030Line (l : List Char) : List Char :=
  let l1 := if "  - ".data.isPrefixOf l then "- ".data ++ l.drop 4 else l
  if "  * ".data.isPrefixOf l1 then "* ".data ++ l1.drop 4 else l1

/-- `MarkdownFixer.fix_md030_list_markers`. -/
def fix_md030 (c : List Char) : List Char :=
  joinNl ((splitNl c).map md030Line)

/-- Matcher for `<img src="([^"]+)" width="64">`, which is rewritten to
    carry an empty `alt` attribute. -/
def m045 (l : List Char) : Option (List Char × Nat) :=
  if "<img src=\"".data.isPrefixOf l then
    let rest := l.drop 10
    let url := rest.takeWhile (fun c => c ≠ '"')
    if url ≠ [] ∧ "\" width=\"64\">".data.isPrefixOf (rest.drop url.length) then
      some ("<img src=\"".data ++ url ++ "\" width=\"64\" alt=\"\">".data, 23 + url.length)
    else none
  else none

/-- `MarkdownFixer.fix_md045_image_alt_text`. -/
def fix_md045 (c : List Char) : List Char :=
  runScan m045 c

/-- The literal (pattern, replacement) table of `fix_md051_link_fragments`
    (all six regexes are fully escaped literals). -/
def md051Pairs : List (List Char × List Char) :=
  [("[Usage & Features](#usage & features)".data,
    "[Usage & Features](#usage---features)".data),
   ("[Performance](#performance)".data, "[Performance](#performance-1)".data),
   ("[Security](#security)".data, "[Security](#security-1)".data),
   ("[Troubleshooting](#troubleshooting)".data,
    "[Troubleshooting](#troubleshooting-1)".data),
   ("[Contributing](#contributing)".data, "[Contributing](#contributing-1)".data),
   ("[Licensing](#licensing)".data, "[Licensing](#licensing-1)".data)]

/-- Matcher replacing one literal occurrence. -/
def mLit (pr : List Char × List Char) (l : List Char) : Option (List Char × Nat) :=
  if pr.1 ≠ [] ∧ pr.1.isPrefixOf l then some (pr.2, pr.1.length) else none

/-- `MarkdownFixer.fix_md051_link_fragments`: the six literal
    substitutions applied in order. -/
def fix_md051 (c : List Char) : List Char :=
  md051Pairs.foldl (fun acc pr => runScan (mLit pr) acc) c

/-! ### Supporting lemmas for MD013 -/

theorem splitComma_ne_nil (l : List Char) : splitComma l ≠ [] := by
  cases l with
  | nil => simp [splitComma]
  | cons c cs =>
    by_cases h : c = '，'
    · simp [splitComma, h]
    · simp only [splitComma, h, if_false]
      cases hs : splitComma cs <;> simp

theorem splitDotSpace_ne_nil (l : List Char) : splitDotSpace l ≠ [] := by
  rw [splitDotSpace.eq_def]
  split
  · simp
  · simp
  · split <;> simp

/-- Every line emitted by the accumulation loop is within the bound,
    or is the starting segment, or is a continuation line made of the
    fixed continuation head plus one stripped segment. -/
theorem accum_mem (sep pref : List Char) (maxLen : Nat) (ps : List (List Char)) :
    ∀ cur out : List Char, out ∈ accum sep pref maxLen cur ps →
      out.length ≤ maxLen ∨ out = cur ∨ ∃ p, p ∈ ps ∧ out = pref ++ stripChars p := by
  induction ps with
  | nil =>
    intro cur out h
    simp only [accum, List.mem_singleton] at h
    exact Or.inr (Or.inl h)
  | cons p ps ih =>
    intro cur out h
    simp only [accum] at h
    by_cases hc : cur.length + p.length + sep.length ≤ maxLen
    · rw [if_pos hc] at h
      rcases ih _ _ h with h1 | h1 | h1
      · exact Or.inl h1
      · left
        subst h1
        simp only [List.length_append]
        omega
      · obtain ⟨q, hq, he⟩ := h1
        exact Or.inr (Or.inr ⟨q, List.mem_cons_of_mem p hq, he⟩)
    · rw [if_neg hc] at h
      rcases List.mem_cons.1 h with h1 | h1
      · exact Or.inr (Or.inl h1)
      · rcases ih _ _ h1 with h2 | h2 | h2
        · exact Or.inl h2
        · exact Or.inr (Or.inr ⟨p, List.mem_cons_self p ps, h2⟩)
        · obtain ⟨q, hq, he⟩ := h2
          exact Or.inr (Or.inr ⟨q, List.mem_cons_of_mem p hq, he⟩)

theorem md013LineE_eq (maxLen : Nat) (l : List Char) :
    md013LineE maxLen l = some (md013LineP maxLen l) := by
  unfold md013LineE md013LineP
  by_cases h1 : maxLen < l.length ∧ '|' ∉ l ∧ btick ∉ l
  · rw [if_pos h1, if_pos h1]
    by_cases h2 : '，' ∈ l
    · rw [if_pos h2, if_pos h2]
      cases hsp : splitComma l with
      | nil => exact absurd hsp (splitComma_ne_nil l)
      | cons p ps => simp
    · rw [if_neg h2, if_neg h2]
      by_cases h3 : containsSub sepDot l
      · rw [if_pos h3, if_pos h3]
        cases hsp : splitDotSpace l with
        | nil => exact absurd hsp (splitDotSpace_ne_nil l)
        | cons p ps => simp
      · rw [if_neg h3, if_neg h3]
  · rw [if_neg h1, if_neg h1]

theorem seqOpt_md013 (maxLen : Nat) (xs : List (List Char)) :
    seqOpt (xs.map (md013LineE maxLen)) = some (xs.map (md013LineP maxLen)) := by
  induction xs with
  | nil => rfl
  | cons x xs ih => simp [seqOpt, md013LineE_eq, ih]

theorem fix_md013E_eq (maxLen : Nat) (c : List Char) :
    fix_md013E maxLen c = some (fix_md013 maxLen c) := by
  unfold fix_md013E fix_md013
  rw [seqOpt_md013]
  rfl

theorem fix_md024E_eq (c : List Char) : fix_md024E c = some (fix_md024 c) := by
  unfold fix_md024E fix_md024
  rw [md024GoE_eq]
  rfl

end MarkdownRules

namespace MarkdownClaims

open MarkdownRules

/-- C1: applying `fix_md024_duplicate_headings` once to three identical
    `"### Foo"` lines yields `"### Foo"`, `"### Foo (2)"`, `"### Foo (3)"`,
    and a second application of the rule to that output leaves it
    unchanged (the pass converges on already-fixed text). -/
theorem md024_convergence_on_three_duplicates :
    fix_md024 ("### Foo\n### Foo\n### Foo".data) =
      ("### Foo\n### Foo (2)\n### Foo (3)".data) ∧
    fix_md024 ("### Foo\n### Foo (2)\n### Foo (3)".data) =
      ("### Foo\n### Foo (2)\n### Foo (3)".data) := by
  constructor
  · decide
  · decide

/-- C2 counterexample: the headings `"### a:b"` and `"### ab"` differ in
    more than a trailing colon, yet `fix_md024_duplicate_headings` counts
    them as the same heading (its normalization deletes every colon), so
    the second is rewritten — refuting the claim that such headings are
    counted as distinct occurrences (which would leave both first
    occurrences unmodified). -/
theorem md024_normalization_counterexample :
    fix_md024 ("### a:b\n### ab".data) ≠ "### a:b\n### ab".data := by
  decide

/-- C2 amended: the normalized text keying the occurrence count is the
    line with every occurrence of `"### "` removed, every colon removed,
    and surrounding whitespace stripped; two level-3 headings with equal
    normalization share one counter even when their texts differ beyond a
    trailing colon, and a rewritten duplicate is `"### "` followed by the
    normalized text and the `" (N)"` suffix. -/
theorem md024_amended_key_and_rewrite (a b : List Char)
    (ha : '\n' ∉ a) (hb : '\n' ∉ b)
    (hpa : "### ".data.isPrefixOf a = true) (hpb : "### ".data.isPrefixOf b = true)
    (hn : normalizeHeading a = normalizeHeading b) :
    fix_md024 (a ++ '\n' :: b) = a ++ '\n' :: mkNumberedHeading (normalizeHeading a) 2 := by
  unfold fix_md024
  rw [splitNl_append_cons a b ha, splitNl_no_newline b hb]
  simp only [md024Go, hpa, hpb, if_true, lookupKey, hn, joinNl]

theorem md024_amended_key_and_rewrite_witness :
    ('\n' ∉ "### a:b".data) ∧
    ("### ".data.isPrefixOf ("### a:b".data) = true) ∧
    normalizeHeading ("### a:b".data) = normalizeHeading ("### ab".data) ∧
    fix_md024 ("### a:b".data ++ '\n' :: "### ab".data) =
      "### a:b".data ++ '\n' :: mkNumberedHeading (normalizeHeading ("### a:b".data)) 2 :=
  ⟨by decide, by decide, by decide,
    md024_amended_key_and_rewrite ("### a:b".data) ("### ab".data)
      (by decide) (by decide) (by decide) (by decide) (by decide)⟩

/-- C8 counterexample: the heading `"### a:b:"` ends with a literal colon,
    but `fix_md026_trailing_punctuation` leaves it unchanged (the source
    pattern `[^:\n]+` forbids any interior colon), refuting the claim that
    every level-2/3 heading ending in a colon loses it. -/
theorem md026_interior_colon_counterexample :
    fix_md026 ("### a:b:".data) ≠ "### a:b".data ∧
    fix_md026 ("### a:b:".data) = "### a:b:".data := by
  exact ⟨by decide, by decide⟩

/-- C8 amended: for every level-2 or level-3 heading line whose text ends
    with a literal colon and contains no other colon, the rule removes the
    trailing colon while keeping the heading marker and its space intact;
    in particular `"### Foo:"` becomes `"### Foo"`. -/
theorem md026_strip_trailing_colon (t : List Char)
    (h1 : t ≠ []) (h2 : ':' ∉ t) (h3 : '\n' ∉ t) :
    fix_md026 ("### ".data ++ t ++ [':']) = "### ".data ++ t ∧
    fix_md026 ("## ".data ++ t ++ [':']) = "## ".data ++ t := by
  have hmem3 : '\n' ∉ "### ".data ++ t ++ [':'] := by
    intro hm
    rcases List.mem_append.1 hm with h | h
    · rcases List.mem_append.1 h with h' | h'
      · exact absurd h' (by decide)
      · exact h3 h'
    · exact absurd h (by decide)
  have hmem2 : '\n' ∉ "## ".data ++ t ++ [':'] := by
    intro hm
    rcases List.mem_append.1 hm with h | h
    · rcases List.mem_append.1 h with h' | h'
      · exact absurd h' (by decide)
      · exact h3 h'
    · exact absurd h (by decide)
  constructor
  · unfold fix_md026
    rw [splitNl_no_newline _ hmem3]
    have hstep1 : md026Line "### ".data ("### ".data ++ t ++ [':']) = "### ".data ++ t := by
      unfold md026Line
      rw [if_pos]
      · rw [List.dropLast_concat]
      · refine ⟨?_, List.getLast?_concat _, ?_, ?_, ?_⟩
        · rw [List.isPrefixOf_iff_prefix, List.append_assoc]
          exact List.prefix_append _ _
        · rw [List.append_assoc, List.drop_left, List.dropLast_concat]; exact h1
        · rw [List.append_assoc, List.drop_left, List.dropLast_concat]; exact h2
        · rw [List.append_assoc, List.drop_left, List.dropLast_concat]; exact h3
    have hstep2 : md026Line "## ".data ("### ".data ++ t) = "### ".data ++ t := by
      unfold md026Line
      rw [if_neg]
      rintro ⟨hpf, -⟩
      exact Bool.noConfusion hpf
    simp only [List.map_cons, List.map_nil]
    rw [hstep1, hstep2]
    rfl
  · unfold fix_md026
    rw [splitNl_no_newline _ hmem2]
    have hstep1 : md026Line "### ".data ("## ".data ++ t ++ [':']) = "## ".data ++ t ++ [':'] := by
      unfold md026Line
      rw [if_neg]
      rintro ⟨hpf, -⟩
      exact Bool.noConfusion hpf
    have hstep2 : md026Line "## ".data ("## ".data ++ t ++ [':']) = "## ".data ++ t := by
      unfold md026Line
      rw [if_pos]
      · rw [List.dropLast_concat]
      · refine ⟨?_, List.getLast?_concat _, ?_, ?_, ?_⟩
        · rw [List.isPrefixOf_iff_prefix, List.append_assoc]
          exact List.prefix_append _ _
        · rw [List.append_assoc, List.drop_left, List.dropLast_concat]; exact h1
        · rw [List.append_assoc, List.drop_left, List.dropLast_concat]; exact h2
        · rw [List.append_assoc, List.drop_left, List.dropLast_concat]; exact h3
    simp only [List.map_cons, List.map_nil]
    rw [hstep1, hstep2]
    rfl

theorem md026_strip_trailing_colon_witness :
    ("Foo".data ≠ []) ∧
    fix_md026 ("### ".data ++ "Foo".data ++ [':']) = "### ".data ++ "Foo".data ∧
    fix_md026 ("## ".data ++ "Foo".data ++ [':']) = "## ".data ++ "Foo".data :=
  ⟨by decide,
    (md026_strip_trailing_colon ("Foo".data) (by decide) (by decide) (by decide)).1,
    (md026_strip_trailing_colon ("Foo".data) (by decide) (by decide) (by decide)).2⟩

/-- C3: the blank-line-collapse rule (`fix_md012_multiple_blank_lines`)
    and the trailing-newline rule (`fix_md047_file_ends_newline`) are each
    idempotent on every text. -/
theorem md012_md047_idempotent (x : List Char) :
    fix_md012 (fix_md012 x) = fix_md012 x ∧ fix_md047 (fix_md047 x) = fix_md047 x :=
  ⟨md012Aux_idem x 0, fix_md047_idem x⟩

/-- C4: the blank-line-before-bullet rule (`fix_md032_heading_list_spacing`)
    and the bold-to-heading promotion rule (`fix_md036_emphasis_heading`) do
    not commute: on a strong-wrapped line immediately followed by a marked
    bullet line, applying MD032 then MD036 differs from MD036 then MD032
    (only the latter composition inserts the blank line, because promotion
    must happen first for the heading pattern to see a `'### '` line). -/
theorem md032_md036_noncommute :
    fix_md036 (fix_md032 ("<strong>Bold</strong>\n- ✅ x".data)) ≠
      fix_md032 (fix_md036 ("<strong>Bold</strong>\n- ✅ x".data)) := by
  decide

set_option maxRecDepth 8000 in
/-- C5 counterexample: the 220-character line `Lc5` (100 `'a'`s, a wide
    comma, 119 `'b'`s) has every split segment within the 120 bound, yet
    the produced continuation line `'  ，' + 'b'*119` has length 122 > 120
    — refuting the claim that only an over-long atomic segment can yield an
    over-long output line. -/
theorem md013_split_bound_counterexample :
    120 < Lc5.length ∧ '|' ∉ Lc5 ∧ btick ∉ Lc5 ∧
    allCommaSegmentsWithin Lc5 = true ∧
    (md013LineP 120 Lc5).map List.length = [100, 122] := by
  refine ⟨by decide, by decide, by decide, by decide, ?_⟩
  decide

/-- C5 amended: every output line derived from splitting an over-long
    input line (no pipe, no backtick) has length at most 120, except when
    the line is a single unmerged segment — either a split segment taken
    as-is, or a continuation line consisting of the two-space indent, the
    split token, and one stripped segment — or the line was passed through
    unsplit for lack of a split token. -/
theorem md013_split_line_bound (l out : List Char) (hlen : 120 < l.length)
    (hp : '|' ∉ l) (hb : btick ∉ l) (hmem : out ∈ md013LineP 120 l) :
    out.length ≤ 120 ∨
    (∃ p, p ∈ splitComma l ∧ (out = p ∨ out = prefComma ++ stripChars p)) ∨
    (∃ p, p ∈ splitDotSpace l ∧ (out = p ∨ out = prefDot ++ stripChars p)) ∨
    out = l := by
  unfold md013LineP at hmem
  rw [if_pos ⟨hlen, hp, hb⟩] at hmem
  by_cases h2 : '，' ∈ l
  · rw [if_pos h2] at hmem
    cases hsp : splitComma l with
    | nil => exact absurd hsp (splitComma_ne_nil l)
    | cons p ps =>
      rw [hsp] at hmem
      rcases accum_mem _ _ _ _ _ _ hmem with h | h | h
      · exact Or.inl h
      · exact Or.inr (Or.inl ⟨p, hsp ▸ List.mem_cons_self p ps, Or.inl h⟩)
      · obtain ⟨q, hq, he⟩ := h
        exact Or.inr (Or.inl ⟨q, hsp ▸ List.mem_cons_of_mem p hq, Or.inr he⟩)
  · rw [if_neg h2] at hmem
    by_cases h3 : containsSub sepDot l
    · rw [if_pos h3] at hmem
      cases hsp : splitDotSpace l with
      | nil => exact absurd hsp (splitDotSpace_ne_nil l)
      | cons p ps =>
        rw [hsp] at hmem
        rcases accum_mem _ _ _ _ _ _ hmem with h | h | h
        · exact Or.inl h
        · exact Or.inr (Or.inr (Or.inl ⟨p, hsp ▸ List.mem_cons_self p ps, Or.inl h⟩))
        · obtain ⟨q, hq, he⟩ := h
          exact Or.inr (Or.inr (Or.inl ⟨q, hsp ▸ List.mem_cons_of_mem p hq, Or.inr he⟩))
    · rw [if_neg h3] at hmem
      simp only [List.mem_singleton] at hmem
      exact Or.inr (Or.inr (Or.inr hmem))

set_option maxRecDepth 8000 in
theorem md013_split_line_bound_witness :
    120 < Lc5.length ∧ (List.replicate 100 'a' ∈ md013LineP 120 Lc5) ∧
    ((List.replicate 100 'a').length ≤ 120 ∨
      (∃ p, p ∈ splitComma Lc5 ∧
        (List.replicate 100 'a' = p ∨ List.replicate 100 'a' = prefComma ++ stripChars p)) ∨
      (∃ p, p ∈ splitDotSpace Lc5 ∧
        (List.replicate 100 'a' = p ∨ List.replicate 100 'a' = prefDot ++ stripChars p)) ∨
      List.replicate 100 'a' = Lc5) :=
  ⟨by decide, by decide,
    md013_split_line_bound Lc5 (List.replicate 100 'a')
      (by decide) (by decide) (by decide) (by decide)⟩

/-- C6 counterexample: in the input below every closing fence is already
    followed by a blank line and every opening fence preceded by one, yet
    `fix_md031_code_blocks` still changes it (the first substitution also
    fires on a closing fence preceded by code, and the second inserts its
    blank line unconditionally). -/
theorem md031_fixed_point_counterexample :
    fix_md031 ("a\n\n```bash\nb\n```\n\nc\n".data) ≠
      "a\n\n```bash\nb\n```\n\nc\n".data := by
  decide

/-- C6 amended: `fix_md031_code_blocks` inserts a blank line before any
    fence line whose previous line is non-blank — including a closing
    fence that directly follows code — and inserts a blank line after
    every bare fence surrounded by newlines even when a blank line is
    already present; on the already-spaced input it therefore produces
    an extra blank before the closing fence and a third newline after it. -/
theorem md031_unconditional_insertion :
    fix_md031 ("a\n\n```bash\nb\n```\n\nc\n".data) =
      "a\n\n```bash\nb\n\n```\n\n\nc\n".data := by
  decide

/-- C7 counterexample: on `"```\nx\n```\n"` the rule annotates the closing
    fence (yielding ```` ```bash ```` there) and leaves the opening fence
    at the start of the content bare — not the claimed output in which
    every opening fence is annotated and closing fences are untouched. -/
theorem md040_closing_fence_counterexample :
    fix_md040 ("```\nx\n```\n".data) = "```\nx\n```bash\n".data ∧
    ("```\nx\n```bash\n".data : List Char) ≠ "```bash\nx\n```\n".data := by
  exact ⟨by decide, by decide⟩

/-- C7 amended: `fix_md040_code_block_language` rewrites every (leftmost,
    non-overlapping) occurrence of a bare fence line that is both preceded
    and followed by a newline — whether it opens or closes a block — to
    carry the `bash` tag, and misses a bare opening fence at the very start
    of the content; on the input below both inner fences are annotated. -/
theorem md040_annotates_all_bare_fences :
    fix_md040 ("a\n```\nc\n```\nb\n".data) = "a\n```bash\nc\n```bash\nb\n".data := by
  decide

/-- C9: `fix_md013_line_length` works line by line, and every input line
    longer than 120 that contains a table pipe or a backtick is kept
    byte-identical (the split branch is never entered for it). -/
theorem md013_pipe_backtick_lines_untouched :
    (∀ c : List Char,
      fix_md013 120 c = joinNl (((splitNl c).map (md013LineP 120)).flatten)) ∧
    ∀ l : List Char, 120 < l.length → '|' ∈ l ∨ btick ∈ l → md013LineP 120 l = [l] := by
  constructor
  · intro c; rfl
  · intro l hlen hmem
    unfold md013LineP
    rw [if_neg]
    rintro ⟨-, hp, hb⟩
    rcases hmem with h | h
    · exact hp h
    · exact hb h

theorem md013_pipe_backtick_lines_untouched_witness :
    120 < (List.replicate 121 '|').length ∧
    md013LineP 120 (List.replicate 121 '|') = [List.replicate 121 '|'] :=
  ⟨by decide,
    md013_pipe_backtick_lines_untouched.2 (List.replicate 121 '|')
      (by decide) (Or.inl (by decide))⟩

/-- C10: the only partial primitives used by any rule body in the source
    are the list subscript `parts[0]` in `fix_md013_line_length` and the
    dict subscript `heading_counts[base]` in `fix_md024_duplicate_headings`
    (every other rule is built solely from total string/regex primitives,
    and its embedding above is a total function by construction).  The
    fallible embeddings of those two rules never reach their error branch:
    on every input they return `some` of the total embedding's result. -/
theorem rules_total_no_error_branch (maxLen : Nat) (c : List Char) :
    fix_md013E maxLen c = some (fix_md013 maxLen c) ∧
    fix_md024E c = some (fix_md024 c) :=
  ⟨fix_md013E_eq maxLen c, fix_md024E_eq c⟩

end MarkdownClaims
